import Mathlib

/-!
Verification development for the OPM-1560B serial-to-MQTT gateway.

The definitions below are a shallow embedding of the gateway's core:
the byte-stream reassembler (`Reader.handleData`), the frame validator
and binary decoder (`Parser.Parse` / `Parser.extractDetectData`), the
MQTT publish path (`Client.Publish`), and the configuration pipeline
(`setHardwareDefaults` / `overrideByEnv` / `validateHardwareConfig`).
Bytes are modelled as `Nat` (values below 256 where it matters, with
explicit `% 256` where the Go code works in uint8/uint16), byte slices
as `List Nat`, fallible operations as `Except`.
-/

namespace Opm

/-! ### Protocol constants

Fixed by the hardware configuration (`setHardwareDefaults` and
`validateHardwareConfig` in the config module, and the test `init`):
frame start marker `AA`, frame end marker `55`, check type `"sum"`,
minimum frame length 16. Both markers are single bytes. -/

def frameStartByte : Nat := 0xAA

def frameEndByte : Nat := 0x55

def frameMinLen : Nat := 16

/-! ### Byte-stream reassembler (`Reader.handleData`) -/

/-- First index at which byte `t` occurs in a buffer, if any. This is the
forward scan of `Reader.handleData` (both markers are single bytes, so the
windowed `compareBytes` scan is a first-occurrence search). -/
def scanIdx (t : Nat) : List Nat → Option Nat
  | [] => none
  | b :: r => if b = t then some 0 else (scanIdx t r).map (· + 1)

/-- End-marker scan of `Reader.handleData` step 3: starting from position
`startIdx + minFrameLen - endLen`, find the end marker; the result is the
position one past it (`endIdx = i + endLen` in the source, with `endLen = 1`). -/
def findEnd (buf : List Nat) (s : Nat) : Option Nat :=
  (scanIdx frameEndByte (buf.drop (s + frameMinLen - 1))).map
    (fun j => s + frameMinLen - 1 + j + 1)

/-- The frame-extraction loop of `Reader.handleData`:
1. stop when fewer than `frameMinLen` bytes are buffered;
2. scan for the start marker, discarding the whole buffer if absent;
3. if fewer than `frameMinLen` bytes remain from the start marker, retain
   from the start marker onward and stop;
4. scan for the end marker from `start + frameMinLen - endLen`, retaining
   from the start marker onward if absent;
5. emit `buffer[startIdx:endIdx]` and continue on `buffer[endIdx:]`.
The loop terminates because every iteration drops at least `frameMinLen`
bytes; `fuel` bounds the iteration count, and the initial buffer length is
always a sufficient bound (used by `extractFrames`). -/
def extractLoop : Nat → List Nat → List (List Nat) × List Nat
  | 0, buf => ([], buf)
  | fuel + 1, buf =>
    if buf.length < frameMinLen then ([], buf)
    else
      match scanIdx frameStartByte buf with
      | none => ([], [])
      | some s =>
        if buf.length - s < frameMinLen then ([], buf.drop s)
        else
          match findEnd buf s with
          | none => ([], buf.drop s)
          | some e =>
            let fr := (buf.drop s).take (e - s)
            let p := extractLoop fuel (buf.drop e)
            (fr :: p.1, p.2)

/-- Run the extraction loop on a buffer; returns the emitted frames (in
emission order) and the retained buffer. -/
def extractFrames (buf : List Nat) : List (List Nat) × List Nat :=
  extractLoop buf.length buf

/-- One call of `Reader.handleData`: append the read chunk to the buffer and
run the extraction loop (the source returns early when the combined buffer is
below the minimum frame length, which coincides with the loop's first check). -/
def handleData (buffer data : List Nat) : List (List Nat) × List Nat :=
  let buf := buffer ++ data
  if buf.length < frameMinLen then ([], buf) else extractFrames buf

/-- Feed a sequence of read chunks starting from an empty buffer, collecting
all emitted frames in order together with the final retained buffer. -/
def feedChunks (chunks : List (List Nat)) : List (List Nat) × List Nat :=
  chunks.foldl (fun acc c =>
    let r := handleData acc.2 c
    (acc.1 ++ r.1, r.2)) ([], [])

/-! ### Frame validator and decoder (`Parser.Parse`) -/

/-- The distinct failures of `Parser.Parse`, one per validation stage, plus
the wrapper around an extraction failure. -/
inductive ParseErr where
  | frameTooShort
  | badStartMarker
  | badEndMarker
  | checksumMismatch
  | extractFailed (msg : String)
  deriving DecidableEq

/-- The parser instance built by `NewParser` from the global configuration. -/
structure Parser where
  frameStart : List Nat
  frameEnd : List Nat
  checkType : String
  minFrameLen : Nat
  deviceID : String
  deviceModel : String
  deriving DecidableEq

/-- The decoded measurement record (`models.OPM1560BDeviceData`). The two
continuous fields are kept as exact rationals (the Go float64 values are the
roundings of these decimal values; all comparisons made by the program are
between such decimal values, so rationals are a faithful carrier). The UTC
timestamp set at construction is not modelled (no claim concerns it). -/
structure OPM1560BDeviceData where
  deviceID : String := ""
  deviceModel : String := ""
  ph : ℚ := 0
  protein : String := ""
  glucose : String := ""
  ketone : String := ""
  occultBlood : String := ""
  leukocyte : String := ""
  erythrocyte : String := ""
  urobilinogen : String := ""
  bilirubin : String := ""
  vc : String := ""
  nitrite : String := ""
  specificGrav : ℚ := 0
  dataState : String := ""
  rawFrameHex : String := ""
  deriving DecidableEq

/-- The hardware grade encoding of `Parser.parseGrade`, any other code
degrades to `"invalid"`. -/
def parseGrade (b : Nat) : String :=
  match b with
  | 0 => "-"
  | 1 => "+"
  | 2 => "±"
  | 3 => "++"
  | 4 => "+++"
  | 5 => "++++"
  | _ => "invalid"

/-- The nitrite switch inside `Parser.extractDetectData`: `0` maps to `"-"`,
`1` to `"+"`, anything else to `"invalid"`. -/
def parseNitrite (b : Nat) : String :=
  match b with
  | 0 => "-"
  | 1 => "+"
  | _ => "invalid"

/-- The 16-bit word `(uint16(data[i]) << 8) | uint16(data[i+1])` formed by
`Parser.extractDetectData` from a byte pair (bytes are uint8, hence the
`% 256`; the shift cannot overflow uint16). -/
def bcdWord (b0 b1 : Nat) : Nat := (b0 % 256) * 256 + (b1 % 256)

/-- Number of digits of the decimal representation of `n` (length of
`fmt.Sprintf("%d", n)`). -/
def decLen (n : Nat) : Nat := (Nat.toDigits 10 n).length

/-- Width of `fmt.Sprintf("%04d", n)`: at least four decimal digits. -/
def bcdWidth (n : Nat) : Nat := max 4 (decLen n)

/-- Exact value of the string `phStr[:1] + "." + phStr[1:]` where
`phStr = fmt.Sprintf("%04d", bcdWord b0 b1)`: the decimal point is inserted
after the first digit, so the value is `n / 10 ^ (width - 1)`. -/
def bcdFieldVal (b0 b1 : Nat) : ℚ :=
  (bcdWord b0 b1 : ℚ) / (10 : ℚ) ^ (bcdWidth (bcdWord b0 b1) - 1)

/-- Result of `strconv.ParseFloat` applied to that string. The string consists of a
digit, a point, and digits, so the parse always succeeds; the result is the
exact decimal value as a rational. -/
def parseFloatBCD (b0 b1 : Nat) : Except String ℚ :=
  Except.ok (bcdFieldVal b0 b1)

/-- Decoder `Parser.extractDetectData`: the fixed 14-byte layout of the data segment.
Byte 0-1 PH (packed pair), 2-9 the eight grade fields, 10 nitrite,
11-12 specific gravity (packed pair), 13 vitamin C. -/
def extractDetectData (p : Parser) (data : List Nat) :
    Except String OPM1560BDeviceData :=
  if data.length < 14 then Except.error "data segment shorter than 14 bytes"
  else do
    let ph ← parseFloatBCD (data.getD 0 0) (data.getD 1 0)
    let sg ← parseFloatBCD (data.getD 11 0) (data.getD 12 0)
    Except.ok
      { deviceID := p.deviceID
        deviceModel := p.deviceModel
        ph := ph
        protein := parseGrade (data.getD 2 0)
        glucose := parseGrade (data.getD 3 0)
        ketone := parseGrade (data.getD 4 0)
        occultBlood := parseGrade (data.getD 5 0)
        leukocyte := parseGrade (data.getD 6 0)
        erythrocyte := parseGrade (data.getD 7 0)
        urobilinogen := parseGrade (data.getD 8 0)
        bilirubin := parseGrade (data.getD 9 0)
        vc := parseGrade (data.getD 13 0)
        nitrite := parseNitrite (data.getD 10 0)
        specificGrav := sg }

/-- Checksum `Parser.calcSum`: sum of all data-segment bytes accumulated in a uint16,
low 8 bits taken. -/
def calcSum (data : List Nat) : Nat :=
  (data.foldl (fun s b => (s + b % 256) % 65536) 0) % 256

def dataStateNormal : String := "normal"

def dataStateAbnormal : String := "abnormal"

/-- Lower bound of the medically-plausible PH range (from the repository's
test-data comment: PH 3.00 is abnormal because it is below 4.5). -/
def phMin : ℚ := 45 / 10

/-- Upper bound of the medically-plausible PH range. -/
def phMax : ℚ := 9

/-- Lower bound of the medically-plausible specific-gravity range. -/
def sgMin : ℚ := 1003 / 1000

/-- Upper bound of the medically-plausible specific-gravity range (from the
repository's test-data comment: 1.040 is abnormal because it exceeds 1.030). -/
def sgMax : ℚ := 1030 / 1000

/-- Modelled from the spec: `OPM1560BDeviceData.CheckDataValid` is defined in
the `models` package, which is not among the provided source files. Per the
spec, the record is classified `"abnormal"` exactly when either continuous
field lies outside its fixed medically-plausible range, and `"normal"`
otherwise; the classification bounds are fixed from the repository's
test-sender comments (PH lower bound 4.5, specific-gravity upper bound
1.030). -/
def checkDataValid (r : OPM1560BDeviceData) : OPM1560BDeviceData :=
  if r.ph < phMin ∨ phMax < r.ph ∨ r.specificGrav < sgMin ∨ sgMax < r.specificGrav
  then { r with dataState := dataStateAbnormal }
  else { r with dataState := dataStateNormal }

def hexDigitChars : List Char :=
  ['0', '1', '2', '3', '4', '5', '6', '7', '8', '9', 'A', 'B', 'C', 'D', 'E', 'F']

/-- Modelled from the spec: `models.HexStr` is not among the provided source
files; per its uses it is the uppercase hexadecimal rendering of a byte slice
(`strings.ToUpper(hex.EncodeToString(...))` as done for `RawFrameHex`). -/
def hexUpper (l : List Nat) : String :=
  String.mk (l.foldr
    (fun b acc =>
      hexDigitChars.getD (b / 16 % 16) '0' :: hexDigitChars.getD (b % 16) '0' :: acc)
    [])

/-- Validator and decoder `Parser.Parse`: length check, boundary checks, sum check, then data
extraction, raw-frame retention, and validity classification.
`SerialFrame.Data` is modelled from the spec's RawFrame layout
(`models.NewSerialFrame` is not among the provided source files): the data
segment is the interior between the markers, excluding the single checksum
byte that immediately precedes the end marker. -/
def parse (p : Parser) (frame : List Nat) : Except ParseErr OPM1560BDeviceData :=
  if frame.length < p.minFrameLen then Except.error ParseErr.frameTooShort
  else if frame.take p.frameStart.length ≠ p.frameStart then
    Except.error ParseErr.badStartMarker
  else if frame.drop (frame.length - p.frameEnd.length) ≠ p.frameEnd then
    Except.error ParseErr.badEndMarker
  else
    let checkSum := frame.getD (frame.length - p.frameEnd.length - 1) 0
    let dataSeg := (frame.drop p.frameStart.length).take
      (frame.length - p.frameStart.length - p.frameEnd.length - 1)
    if p.checkType = "sum" ∧ calcSum dataSeg ≠ checkSum then
      Except.error ParseErr.checksumMismatch
    else
      match extractDetectData p dataSeg with
      | Except.error e => Except.error (ParseErr.extractFailed e)
      | Except.ok r0 => Except.ok (checkDataValid { r0 with rawFrameHex := hexUpper frame })

/-- The parser built by `NewParser` under the repository's configuration
(the unit-test `init` and the hardware defaults agree on every field). -/
def defaultParser : Parser :=
  { frameStart := [0xAA]
    frameEnd := [0x55]
    checkType := "sum"
    minFrameLen := 16
    deviceID := "SN1234567890"
    deviceModel := "OPM-1560B" }

/-- Discriminator for parse results (success or failure). -/
def parseOk (r : Except ParseErr OPM1560BDeviceData) : Bool :=
  match r with
  | Except.ok _ => true
  | Except.error _ => false

/-- Discriminator for extraction results. -/
def extractOk (r : Except String OPM1560BDeviceData) : Bool :=
  match r with
  | Except.ok _ => true
  | Except.error _ => false

/-! ### Publish link (`Client.Publish`) -/

/-- The connection-relevant state of the MQTT client when `Publish` is
called: `clientIsNil` is `c.client == nil`, `isConnected` is the internal
flag, `connectionOpen` is `c.client.IsConnectionOpen()`. -/
structure MqttLinkState where
  clientIsNil : Bool
  isConnected : Bool
  connectionOpen : Bool
  deriving DecidableEq

/-- Outcome of `Client.Publish`. -/
inductive PublishOutcome where
  | errClientNil
  | errNotConnected
  | errBadMsgType
  | published (topic : String)
  deriving DecidableEq

def mqttMsgTypeData : String := "data"

def mqttMsgTypeState : String := "state"

/-- Publish path `Client.Publish`, stage by stage as written in the source:
1. nil-client check;
2. connection guard, modelled exactly as written:
   `if !c.isConnected || c.client.IsConnectionOpen() then error`;
3. serialization via `ToJSON` (a JSON marshal of a plain struct: always
   succeeds, modelled as total);
4. topic routing by message type, `data` and `state` each to their
   per-device topic, anything else an error;
5. hand-off to `c.client.Publish` (the paho call returns a non-nil token
   for a live client; the defensive nil-token branch is not modelled) and
   immediate return: the wait for the broker acknowledgment happens on a
   separate goroutine, so a `published` outcome is returned without
   waiting. -/
def clientPublish (topicPfx deviceID : String) (st : MqttLinkState)
    (msgType : String) : PublishOutcome :=
  if st.clientIsNil then PublishOutcome.errClientNil
  else if (!st.isConnected || st.connectionOpen) then PublishOutcome.errNotConnected
  else if msgType = mqttMsgTypeData then
    PublishOutcome.published (topicPfx ++ "/" ++ deviceID ++ "/data")
  else if msgType = mqttMsgTypeState then
    PublishOutcome.published (topicPfx ++ "/" ++ deviceID ++ "/state")
  else PublishOutcome.errBadMsgType

/-! ### Configuration pipeline (`Load`) -/

structure DeviceConfig where
  deviceID : String
  model : String
  deriving DecidableEq

structure SerialConfig where
  port : String
  baudRate : Int
  dataBits : Int
  stopBits : Int
  parity : String
  timeout : Int
  retryCnt : Int
  retryInt : Int
  deriving DecidableEq

structure MQTTConfig where
  broker : String
  clientID : String
  username : String
  password : String
  topicPfx : String
  qos : Int
  keepAlive : Int
  reconnectInt : Int
  willTopic : String
  willMsg : String
  willQoS : Int
  willRetain : Bool
  deriving DecidableEq

structure LogConfig where
  path : String
  level : String
  deriving DecidableEq

structure ParserConfig where
  frameStart : String
  frameEnd : String
  checkType : String
  frameMinLen : Int
  deriving DecidableEq

/-- The project configuration (`config.Config`). -/
structure Config where
  device : DeviceConfig
  serial : SerialConfig
  mqtt : MQTTConfig
  log : LogConfig
  parser : ParserConfig
  deriving DecidableEq

/-- Defaulting step `setHardwareDefaults`: every zero-valued field is replaced with its
hardware default, in source order (the will-topic default uses the
already-defaulted topic prefix). -/
def setHardwareDefaults (cfg : Config) : Config :=
  let dModel := if cfg.device.model = "" then "OPM-1560B" else cfg.device.model
  let sBaud := if cfg.serial.baudRate = 0 then 9600 else cfg.serial.baudRate
  let sData := if cfg.serial.dataBits = 0 then 8 else cfg.serial.dataBits
  let sStop := if cfg.serial.stopBits = 0 then 1 else cfg.serial.stopBits
  let sParity := if cfg.serial.parity = "" then "none" else cfg.serial.parity
  let sTimeout := if cfg.serial.timeout = 0 then 3 else cfg.serial.timeout
  let sRetryCnt := if cfg.serial.retryCnt = 0 then 3 else cfg.serial.retryCnt
  let sRetryInt := if cfg.serial.retryInt = 0 then 2 else cfg.serial.retryInt
  let mTopicPfx :=
    if cfg.mqtt.topicPfx = "" then "opm1560b/urine/analyzer" else cfg.mqtt.topicPfx
  let mQoS := if cfg.mqtt.qos = 0 then 1 else cfg.mqtt.qos
  let mKeepAlive := if cfg.mqtt.keepAlive = 0 then 30 else cfg.mqtt.keepAlive
  let mReconnectInt := if cfg.mqtt.reconnectInt = 0 then 2 else cfg.mqtt.reconnectInt
  let mClientID := if cfg.mqtt.clientID = "" then cfg.device.deviceID else cfg.mqtt.clientID
  let mWillTopic :=
    if cfg.mqtt.willTopic = "" then mTopicPfx ++ "/" ++ cfg.device.deviceID ++ "/state"
    else cfg.mqtt.willTopic
  let mWillMsg := if cfg.mqtt.willMsg = "" then "offline" else cfg.mqtt.willMsg
  let mWillQoS := if cfg.mqtt.willQoS = 0 then 1 else cfg.mqtt.willQoS
  let mWillRetain := if !cfg.mqtt.willRetain then true else cfg.mqtt.willRetain
  let lPath := if cfg.log.path = "" then "logs/app.log" else cfg.log.path
  let lLevel := if cfg.log.level = "" then "INFO" else cfg.log.level
  let pStart := if cfg.parser.frameStart = "" then "AA" else cfg.parser.frameStart
  let pEnd := if cfg.parser.frameEnd = "" then "55" else cfg.parser.frameEnd
  let pCheck := if cfg.parser.checkType = "" then "sum" else cfg.parser.checkType
  let pMinLen := if cfg.parser.frameMinLen = 0 then 16 else cfg.parser.frameMinLen
  { device := { deviceID := cfg.device.deviceID, model := dModel }
    serial := { port := cfg.serial.port, baudRate := sBaud, dataBits := sData
                stopBits := sStop, parity := sParity, timeout := sTimeout
                retryCnt := sRetryCnt, retryInt := sRetryInt }
    mqtt := { broker := cfg.mqtt.broker, clientID := mClientID
              username := cfg.mqtt.username, password := cfg.mqtt.password
              topicPfx := mTopicPfx, qos := mQoS, keepAlive := mKeepAlive
              reconnectInt := mReconnectInt, willTopic := mWillTopic
              willMsg := mWillMsg, willQoS := mWillQoS, willRetain := mWillRetain }
    log := { path := lPath, level := lLevel }
    parser := { frameStart := pStart, frameEnd := pEnd, checkType := pCheck
                frameMinLen := pMinLen } }

/-- The environment variables read by `overrideByEnv`. A `some` value models
a non-empty variable; the baud-rate variable is modelled as the
already-parsed integer, present only when `strconv.Atoi` succeeds. -/
structure Env where
  deviceID : Option String := none
  serialPort : Option String := none
  serialBaudRate : Option Int := none
  mqttBroker : Option String := none
  mqttUsername : Option String := none
  mqttPassword : Option String := none
  deriving DecidableEq

/-- Override step `overrideByEnv`: each present variable overrides its field; no other
field (in particular neither `qos` nor `willRetain`) is touched. -/
def overrideByEnv (cfg : Config) (env : Env) : Config :=
  { cfg with
    device := { cfg.device with deviceID := env.deviceID.getD cfg.device.deviceID }
    serial := { cfg.serial with
                port := env.serialPort.getD cfg.serial.port
                baudRate := env.serialBaudRate.getD cfg.serial.baudRate }
    mqtt := { cfg.mqtt with
              broker := env.mqttBroker.getD cfg.mqtt.broker
              username := env.mqttUsername.getD cfg.mqtt.username
              password := env.mqttPassword.getD cfg.mqtt.password } }

/-- Value of an upper- or lower-case hexadecimal digit. -/
def hexCharVal (c : Char) : Option Nat :=
  if '0' ≤ c ∧ c ≤ '9' then some (c.toNat - '0'.toNat)
  else if 'a' ≤ c ∧ c ≤ 'f' then some (c.toNat - 'a'.toNat + 10)
  else if 'A' ≤ c ∧ c ≤ 'F' then some (c.toNat - 'F'.toNat + 10)
  else none

/-- Parse consecutive two-digit hexadecimal pairs (`fmt.Sscanf "%02x"` per
pair). -/
def hexPairsToBytes : List Char → Option (List Nat)
  | [] => some []
  | [_] => none
  | c1 :: c2 :: r =>
    match hexCharVal c1, hexCharVal c2, hexPairsToBytes r with
    | some h, some l, some rest => some ((h * 16 + l) :: rest)
    | _, _, _ => none

/-- ASCII whitespace (the characters `strings.TrimSpace` strips from the
configuration strings at hand). -/
def isSpaceChar (ch : Char) : Bool :=
  ch = ' ' || ch = '\t' || ch = '\n' || ch = '\r'

/-- Strip leading and trailing whitespace (`strings.TrimSpace`). -/
def trimChars (l : List Char) : List Char :=
  ((l.dropWhile isSpaceChar).reverse.dropWhile isSpaceChar).reverse

/-- Hex parsing `hexStrToBytes`: trim whitespace, reject odd lengths, parse hex pairs. -/
def hexStrToBytes (s : String) : Option (List Nat) :=
  let t := trimChars s.data
  if t.length % 2 ≠ 0 then none else hexPairsToBytes t

/-- Validation `validateHardwareConfig`: the startup validation, condition by condition
in source order. -/
def validateHardwareConfig (cfg : Config) : Except String Unit :=
  if cfg.device.deviceID = "" then Except.error "device.device_id required"
  else if cfg.serial.port = "" then Except.error "serial.port required"
  else if cfg.serial.baudRate ≠ 9600 ∧ cfg.serial.baudRate ≠ 19200 then
    Except.error "serial.baud_rate must be 9600 or 19200"
  else if cfg.serial.dataBits ≠ 8 then Except.error "serial.data_bits must be 8"
  else if cfg.serial.stopBits ≠ 1 then Except.error "serial.stop_bits must be 1"
  else if cfg.mqtt.broker = "" then Except.error "mqtt.broker required"
  else if cfg.mqtt.qos < 0 ∨ 2 < cfg.mqtt.qos then
    Except.error "mqtt.qos must be 0, 1 or 2"
  else if (hexStrToBytes cfg.parser.frameStart).isNone then
    Except.error "parser.frame_start not hexadecimal"
  else if (hexStrToBytes cfg.parser.frameEnd).isNone then
    Except.error "parser.frame_end not hexadecimal"
  else if cfg.parser.checkType ≠ "sum" then Except.error "parser.check_type must be sum"
  else if cfg.parser.frameMinLen < 16 then Except.error "parser.frame_min_len below 16"
  else if cfg.log.level ≠ "INFO" ∧ cfg.log.level ≠ "WARN" ∧ cfg.log.level ≠ "ERROR" ∧
      cfg.log.level ≠ "FATAL" then
    Except.error "log.level not a known level"
  else Except.ok ()

/-- Result of `config.Load` after the YAML decode (the decoded file content is the
`cfg` argument): defaults, environment overrides, validation; on success the
resulting configuration becomes the global configuration. -/
def loadResult (cfg : Config) (env : Env) : Except String Config :=
  let c1 := setHardwareDefaults cfg
  let c2 := overrideByEnv c1 env
  match validateHardwareConfig c2 with
  | Except.error e => Except.error e
  | Except.ok _ => Except.ok c2

end Opm

namespace Opm

/-- The wire-format frame: start marker, 14-byte data segment, checksum
byte, end marker. -/
def mkFrame (d : List Nat) (ck : Nat) : List Nat :=
  frameStartByte :: d ++ [ck, frameEndByte]

theorem scanIdx_cons_self (t : Nat) (r : List Nat) : scanIdx t (t :: r) = some 0 := by
  simp [scanIdx]

theorem scanIdx_eq_none (t : Nat) (l : List Nat) (h : ∀ b ∈ l, b ≠ t) :
    scanIdx t l = none := by
  induction l with
  | nil => rfl
  | cons b r ih =>
    have hb : b ≠ t := h b (by simp)
    simp [scanIdx, hb, ih (fun x hx => h x (by simp [hx]))]

theorem scanIdx_append_start (t : Nat) (g l : List Nat) (h : ∀ b ∈ g, b ≠ t) :
    scanIdx t (g ++ t :: l) = some g.length := by
  induction g with
  | nil => simp [scanIdx]
  | cons b r ih =>
    have hb : b ≠ t := h b (by simp)
    have hr := ih (fun x hx => h x (by simp [hx]))
    simp [scanIdx, hb, hr]

theorem mkFrame_length (d : List Nat) (ck : Nat) (hd : d.length = 14) :
    (mkFrame d ck).length = 17 := by
  simp [mkFrame, hd]

theorem extractLoop_short (fuel : Nat) (buf : List Nat)
    (h : buf.length < frameMinLen) : extractLoop fuel buf = ([], buf) := by
  cases fuel with
  | zero => rfl
  | succ n => simp [extractLoop, h]

theorem extractLoop_nostart (fuel : Nat) (buf : List Nat)
    (h16 : frameMinLen ≤ buf.length) (hn : ∀ b ∈ buf, b ≠ frameStartByte) :
    extractLoop (fuel + 1) buf = ([], []) := by
  simp [extractLoop, Nat.not_lt.2 h16, scanIdx_eq_none _ _ hn]

theorem extractLoop_step (fuel : Nat) (g d rest : List Nat) (ck : Nat)
    (hg : ∀ b ∈ g, b ≠ frameStartByte) (hd : d.length = 14)
    (hck : ck ≠ frameEndByte) :
    extractLoop (fuel + 1) (g ++ mkFrame d ck ++ rest) =
      ((mkFrame d ck) :: (extractLoop fuel rest).1, (extractLoop fuel rest).2) := by
  have hlen : (g ++ mkFrame d ck ++ rest).length = g.length + 17 + rest.length := by
    simp [mkFrame, hd]; omega
  have hshape : g ++ mkFrame d ck ++ rest =
      g ++ frameStartByte :: ((d ++ [ck, frameEndByte]) ++ rest) := by
    simp [mkFrame]
  have hstart : scanIdx frameStartByte (g ++ mkFrame d ck ++ rest) = some g.length := by
    rw [hshape]; exact scanIdx_append_start _ _ _ hg
  have hdrop15 : (g ++ mkFrame d ck ++ rest).drop (g.length + 15) =
      ck :: frameEndByte :: rest := by
    rw [List.append_assoc, ← List.drop_drop, List.drop_left]
    show (mkFrame d ck ++ rest).drop 15 = _
    have : mkFrame d ck ++ rest = frameStartByte :: (d ++ ([ck, frameEndByte] ++ rest)) := by
      simp [mkFrame]
    rw [this, List.drop_succ_cons, List.drop_left' hd]
    rfl
  have hend : findEnd (g ++ mkFrame d ck ++ rest) g.length = some (g.length + 17) := by
    unfold findEnd
    have h15 : g.length + frameMinLen - 1 = g.length + 15 := by simp [frameMinLen]
    rw [h15, hdrop15]
    simp [scanIdx, hck]
  have hfr : ((g ++ mkFrame d ck ++ rest).drop g.length).take (g.length + 17 - g.length) =
      mkFrame d ck := by
    rw [List.append_assoc, List.drop_left]
    have h17 : g.length + 17 - g.length = 17 := by omega
    rw [h17, List.take_left' (mkFrame_length d ck hd)]
  have hrest : (g ++ mkFrame d ck ++ rest).drop (g.length + 17) = rest := by
    rw [List.append_assoc, ← List.drop_drop, List.drop_left,
      List.drop_left' (mkFrame_length d ck hd)]
  have hmin : frameMinLen = 16 := rfl
  show extractLoop (fuel + 1) (g ++ mkFrame d ck ++ rest) = _
  rw [extractLoop]
  rw [if_neg (by omega)]
  rw [hstart]
  dsimp only
  rw [if_neg (by omega)]
  rw [hend]
  dsimp only
  rw [hfr, hrest]

theorem extractLoop_step55 (fuel : Nat) (g d rest : List Nat)
    (hg : ∀ b ∈ g, b ≠ frameStartByte) (hd : d.length = 14) :
    extractLoop (fuel + 1) (g ++ mkFrame d frameEndByte ++ rest) =
      ((frameStartByte :: d ++ [frameEndByte]) ::
          (extractLoop fuel (frameEndByte :: rest)).1,
        (extractLoop fuel (frameEndByte :: rest)).2) := by
  have hlen : (g ++ mkFrame d frameEndByte ++ rest).length = g.length + 17 + rest.length := by
    simp [mkFrame, hd]; omega
  have hshape : g ++ mkFrame d frameEndByte ++ rest =
      g ++ frameStartByte :: ((d ++ [frameEndByte, frameEndByte]) ++ rest) := by
    simp [mkFrame]
  have hstart : scanIdx frameStartByte (g ++ mkFrame d frameEndByte ++ rest) =
      some g.length := by
    rw [hshape]; exact scanIdx_append_start _ _ _ hg
  have hdrop15 : (g ++ mkFrame d frameEndByte ++ rest).drop (g.length + 15) =
      frameEndByte :: frameEndByte :: rest := by
    rw [List.append_assoc, ← List.drop_drop, List.drop_left]
    show (mkFrame d frameEndByte ++ rest).drop 15 = _
    have : mkFrame d frameEndByte ++ rest =
        frameStartByte :: (d ++ ([frameEndByte, frameEndByte] ++ rest)) := by
      simp [mkFrame]
    rw [this, List.drop_succ_cons, List.drop_left' hd]
    rfl
  have hend : findEnd (g ++ mkFrame d frameEndByte ++ rest) g.length =
      some (g.length + 16) := by
    unfold findEnd
    have h15 : g.length + frameMinLen - 1 = g.length + 15 := by simp [frameMinLen]
    rw [h15, hdrop15]
    simp [scanIdx]
  have hsplit : mkFrame d frameEndByte ++ rest =
      (frameStartByte :: d ++ [frameEndByte]) ++ ([frameEndByte] ++ rest) := by
    simp [mkFrame]
  have hlen16 : (frameStartByte :: d ++ [frameEndByte]).length = 16 := by simp [hd]
  have hfr : ((g ++ mkFrame d frameEndByte ++ rest).drop g.length).take
      (g.length + 16 - g.length) = frameStartByte :: d ++ [frameEndByte] := by
    rw [List.append_assoc, List.drop_left]
    have h16 : g.length + 16 - g.length = 16 := by omega
    rw [h16, hsplit, List.take_left' hlen16]
  have hrest : (g ++ mkFrame d frameEndByte ++ rest).drop (g.length + 16) =
      frameEndByte :: rest := by
    rw [List.append_assoc, ← List.drop_drop, List.drop_left, hsplit,
      List.drop_left' hlen16]
    rfl
  have hmin : frameMinLen = 16 := rfl
  show extractLoop (fuel + 1) (g ++ mkFrame d frameEndByte ++ rest) = _
  rw [extractLoop]
  rw [if_neg (by omega)]
  rw [hstart]
  dsimp only
  rw [if_neg (by omega)]
  rw [hend]
  dsimp only
  rw [hfr, hrest]

theorem extractLoop_retain (fuel : Nat) (d : List Nat) (ck : Nat)
    (hd : d.length = 14) (hck : ck ≠ frameEndByte) :
    extractLoop (fuel + 1) (frameStartByte :: d ++ [ck]) =
      ([], frameStartByte :: d ++ [ck]) := by
  have hlen : (frameStartByte :: d ++ [ck]).length = 16 := by simp [hd]
  have hstart : scanIdx frameStartByte (frameStartByte :: d ++ [ck]) = some 0 :=
    scanIdx_cons_self _ _
  have hdrop15 : (frameStartByte :: d ++ [ck]).drop (0 + 15) = [ck] := by
    show (frameStartByte :: (d ++ [ck])).drop 15 = [ck]
    rw [List.drop_succ_cons, List.drop_left' hd]
  have hend : findEnd (frameStartByte :: d ++ [ck]) 0 = none := by
    unfold findEnd
    have h15 : 0 + frameMinLen - 1 = 0 + 15 := by simp [frameMinLen]
    rw [h15, hdrop15]
    simp [scanIdx, hck]
  have hmin : frameMinLen = 16 := rfl
  rw [extractLoop]
  rw [if_neg (by omega)]
  rw [hstart]
  dsimp only
  rw [if_neg (by omega)]
  rw [hend]
  dsimp only
  rw [List.drop_zero]

theorem extractLoop_retain55 (fuel : Nat) (d : List Nat) (hd : d.length = 14) :
    extractLoop (fuel + 1) (frameStartByte :: d ++ [frameEndByte]) =
      ([frameStartByte :: d ++ [frameEndByte]], []) := by
  have hlen : (frameStartByte :: d ++ [frameEndByte]).length = 16 := by simp [hd]
  have hstart : scanIdx frameStartByte (frameStartByte :: d ++ [frameEndByte]) = some 0 :=
    scanIdx_cons_self _ _
  have hdrop15 : (frameStartByte :: d ++ [frameEndByte]).drop (0 + 15) = [frameEndByte] := by
    show (frameStartByte :: (d ++ [frameEndByte])).drop 15 = [frameEndByte]
    rw [List.drop_succ_cons, List.drop_left' hd]
  have hend : findEnd (frameStartByte :: d ++ [frameEndByte]) 0 = some 16 := by
    unfold findEnd
    have h15 : 0 + frameMinLen - 1 = 0 + 15 := by simp [frameMinLen]
    rw [h15, hdrop15]
    simp [scanIdx]
  have hfr : ((frameStartByte :: d ++ [frameEndByte]).drop 0).take (16 - 0) =
      frameStartByte :: d ++ [frameEndByte] := by
    rw [List.drop_zero]
    exact List.take_of_length_le (by omega)
  have hrest : (frameStartByte :: d ++ [frameEndByte]).drop 16 = [] := by
    exact List.drop_of_length_le (by omega)
  have hmin : frameMinLen = 16 := rfl
  rw [extractLoop]
  rw [if_neg (by omega)]
  rw [hstart]
  dsimp only
  rw [if_neg (by omega)]
  rw [hend]
  dsimp only
  rw [hfr, hrest]
  rw [extractLoop_short fuel [] (by simp [frameMinLen])]

theorem handleData_eq_of_append (b1 c1 b2 c2 : List Nat) (h : b1 ++ c1 = b2 ++ c2) :
    handleData b1 c1 = handleData b2 c2 := by
  unfold handleData
  rw [h]

theorem handleData_short (b c : List Nat) (h : (b ++ c).length < frameMinLen) :
    handleData b c = ([], b ++ c) := by
  unfold handleData
  rw [if_pos h]

theorem handleData_frame (b d : List Nat) (ck : Nat)
    (hb : ∀ x ∈ b, x ≠ frameStartByte) (hd : d.length = 14)
    (hck : ck ≠ frameEndByte) :
    handleData b (mkFrame d ck) = ([mkFrame d ck], []) := by
  unfold handleData extractFrames
  have hmin : frameMinLen = 16 := rfl
  have hlen : (b ++ mkFrame d ck).length = b.length + 17 := by
    rw [List.length_append, mkFrame_length d ck hd]
  dsimp only
  rw [hlen, if_neg (by omega)]
  have hfuel : b.length + 17 = (b.length + 16) + 1 := by omega
  rw [hfuel, show b ++ mkFrame d ck = b ++ mkFrame d ck ++ [] by simp,
    extractLoop_step _ b d [] ck hb hd hck,
    extractLoop_short _ [] (by simp [frameMinLen])]

theorem handleData_frame55 (b d : List Nat)
    (hb : ∀ x ∈ b, x ≠ frameStartByte) (hd : d.length = 14) :
    handleData b (mkFrame d frameEndByte) =
      ([frameStartByte :: d ++ [frameEndByte]], [frameEndByte]) := by
  unfold handleData extractFrames
  have hmin : frameMinLen = 16 := rfl
  have hlen : (b ++ mkFrame d frameEndByte).length = b.length + 17 := by
    rw [List.length_append, mkFrame_length d frameEndByte hd]
  dsimp only
  rw [hlen, if_neg (by omega)]
  have hfuel : b.length + 17 = (b.length + 16) + 1 := by omega
  rw [hfuel, show b ++ mkFrame d frameEndByte = b ++ mkFrame d frameEndByte ++ [] by simp,
    extractLoop_step55 _ b d [] hb hd,
    extractLoop_short _ [frameEndByte] (by simp [frameMinLen])]

theorem handleData_garbage (g : List Nat) (hg : ∀ b ∈ g, b ≠ frameStartByte)
    (hlen : frameMinLen ≤ g.length) : handleData [] g = ([], []) := by
  unfold handleData extractFrames
  dsimp only
  rw [List.nil_append, if_neg (by omega)]
  obtain ⟨k, hk⟩ : ∃ k, g.length = k + 1 := by
    refine ⟨g.length - 1, ?_⟩
    have hmin : frameMinLen = 16 := rfl
    omega
  rw [hk, extractLoop_nostart k g hlen hg]

theorem feedChunks_one (c : List Nat) : feedChunks [c] = handleData [] c := by
  simp [feedChunks]

theorem feedChunks_two (c1 c2 : List Nat) :
    feedChunks [c1, c2] =
      ((handleData [] c1).1 ++ (handleData (handleData [] c1).2 c2).1,
        (handleData (handleData [] c1).2 c2).2) := by
  simp [feedChunks]

theorem whole_feed_emits_one (d : List Nat) (ck : Nat) (hd : d.length = 14) :
    ((handleData [] (mkFrame d ck)).1).length = 1 := by
  by_cases h55 : ck = frameEndByte
  · rw [h55, handleData_frame55 [] d (by simp) hd]; rfl
  · rw [handleData_frame [] d ck (by simp) hd h55]; rfl

/-- Claim C5: torn-frame reassembly. For every wire-format frame `f` with a
correct checksum and every split position `i ≤ length f`, feeding `f[0:i]`
and then `f[i:]` to the reassembler as two chunks (starting from an empty
buffer) emits exactly the same frames as feeding `f` whole in one chunk,
and feeding `f` whole emits exactly one frame. -/
theorem torn_frame_reassembly_eq_whole (d : List Nat) (ck i : Nat)
    (hd : d.length = 14) (hck : ck = calcSum d)
    (hi : i ≤ (mkFrame d ck).length) :
    (feedChunks [(mkFrame d ck).take i, (mkFrame d ck).drop i]).1 =
      (feedChunks [mkFrame d ck]).1 ∧
    ((feedChunks [mkFrame d ck]).1).length = 1 := by
  have hmin : frameMinLen = 16 := rfl
  have hflen : (mkFrame d ck).length = 17 := mkFrame_length d ck hd
  have hwhole1 : ((feedChunks [mkFrame d ck]).1).length = 1 := by
    rw [feedChunks_one]; exact whole_feed_emits_one d ck hd
  refine ⟨?_, hwhole1⟩
  rw [feedChunks_one, feedChunks_two]
  have hcases : i ≤ 15 ∨ i = 16 ∨ i = 17 := by omega
  rcases hcases with h15 | h16 | h17
  · -- the first chunk is below the minimum frame length and is retained whole
    have hlen1 : (([] : List Nat) ++ (mkFrame d ck).take i).length < frameMinLen := by
      simp [List.length_take, hflen]; omega
    rw [handleData_short [] _ hlen1]
    rw [handleData_eq_of_append ([] ++ (mkFrame d ck).take i) ((mkFrame d ck).drop i)
      [] (mkFrame d ck) (by simp [List.take_append_drop])]
    simp
  · -- split right after the checksum byte
    subst h16
    have hsplit : mkFrame d ck = (frameStartByte :: d ++ [ck]) ++ [frameEndByte] := by
      simp [mkFrame]
    have hlen16 : (frameStartByte :: d ++ [ck]).length = 16 := by simp [hd]
    have htake : (mkFrame d ck).take 16 = frameStartByte :: d ++ [ck] := by
      rw [hsplit, List.take_left' hlen16]
    have hdrop : (mkFrame d ck).drop 16 = [frameEndByte] := by
      rw [hsplit, List.drop_left' hlen16]
    by_cases h55 : ck = frameEndByte
    · -- chunk 1 is already a 16-byte marker-bounded frame and is emitted
      have hc1 : handleData [] ((mkFrame d ck).take 16) =
          ([frameStartByte :: d ++ [frameEndByte]], []) := by
        rw [htake]
        unfold handleData extractFrames
        dsimp only
        rw [List.nil_append, hlen16, if_neg (by omega)]
        rw [show (16 : Nat) = 15 + 1 from rfl, h55, extractLoop_retain55 15 d hd]
      rw [hc1]
      have hc2 : handleData ([] : List Nat) ((mkFrame d ck).drop 16) =
          ([], [frameEndByte]) := by
        rw [hdrop]
        exact handleData_short [] _ (by simp [frameMinLen])
      rw [hc2]
      rw [h55, handleData_frame55 [] d (by simp) hd]
      rfl
    · -- chunk 1 is an incomplete frame and is retained from the marker onward
      have hc1 : handleData [] ((mkFrame d ck).take 16) =
          ([], frameStartByte :: d ++ [ck]) := by
        rw [htake]
        unfold handleData extractFrames
        dsimp only
        rw [List.nil_append, hlen16, if_neg (by omega)]
        rw [show (16 : Nat) = 15 + 1 from rfl, extractLoop_retain 15 d ck hd h55]
      rw [hc1]
      rw [handleData_eq_of_append (frameStartByte :: d ++ [ck]) ((mkFrame d ck).drop 16)
        [] (mkFrame d ck) (by rw [hdrop, List.nil_append, hsplit])]
      simp
  · -- the whole frame arrives in the first chunk, the second chunk is empty
    subst h17
    have htake : (mkFrame d ck).take 17 = mkFrame d ck := by
      rw [← hflen]; exact List.take_length _
    have hdrop : (mkFrame d ck).drop 17 = [] := by
      rw [← hflen]; exact List.drop_length _
    rw [htake, hdrop]
    by_cases h55 : ck = frameEndByte
    · rw [h55, handleData_frame55 [] d (by simp) hd]
      rw [handleData_short [frameEndByte] [] (by simp [frameMinLen])]
      simp
    · rw [handleData_frame [] d ck (by simp) hd h55]
      rw [handleData_short [] [] (by simp [frameMinLen])]
      simp

/-- Claim C6 (amended): sticky-frame reassembly for two valid frames whose
checksum bytes differ from the end-marker byte `0x55`. Feeding the
concatenation in one chunk emits exactly the two original frames, in order,
leaving an empty buffer. -/
theorem sticky_frame_reassembly (d1 d2 : List Nat) (ck1 ck2 : Nat)
    (hd1 : d1.length = 14) (hd2 : d2.length = 14)
    (hck1 : ck1 = calcSum d1) (hck2 : ck2 = calcSum d2)
    (h55a : ck1 ≠ frameEndByte) (h55b : ck2 ≠ frameEndByte) :
    feedChunks [mkFrame d1 ck1 ++ mkFrame d2 ck2] =
      ([mkFrame d1 ck1, mkFrame d2 ck2], []) := by
  have hmin : frameMinLen = 16 := rfl
  rw [feedChunks_one]
  unfold handleData extractFrames
  dsimp only
  have hlen : (([] : List Nat) ++ (mkFrame d1 ck1 ++ mkFrame d2 ck2)).length = 34 := by
    rw [List.nil_append, List.length_append, mkFrame_length d1 ck1 hd1,
      mkFrame_length d2 ck2 hd2]
  rw [List.nil_append, if_neg (by rw [List.nil_append] at hlen; omega)]
  rw [List.nil_append] at hlen
  rw [hlen, show (34 : Nat) = 33 + 1 from rfl]
  rw [show mkFrame d1 ck1 ++ mkFrame d2 ck2 = [] ++ mkFrame d1 ck1 ++ mkFrame d2 ck2
    by simp]
  rw [extractLoop_step 33 [] d1 (mkFrame d2 ck2) ck1 (by simp) hd1 h55a]
  rw [show (33 : Nat) = 32 + 1 from rfl]
  rw [show mkFrame d2 ck2 = [] ++ mkFrame d2 ck2 ++ [] by simp]
  rw [extractLoop_step 32 [] d2 [] ck2 (by simp) hd2 h55b]
  rw [extractLoop_short 32 [] (by simp [frameMinLen])]
  simp

/-- Claim C7 (amended): garbage resync for a valid frame whose checksum byte
differs from the end-marker byte `0x55`. Feeding a chunk with no start-marker
byte and then the frame emits exactly the frame; moreover a start-marker-free
buffer that has reached the minimum frame length is discarded entirely. -/
theorem garbage_resync (g d : List Nat) (ck : Nat)
    (hg : ∀ b ∈ g, b ≠ frameStartByte) (hd : d.length = 14)
    (hck : ck = calcSum d) (h55 : ck ≠ frameEndByte) :
    (feedChunks [g, mkFrame d ck]).1 = [mkFrame d ck] ∧
    (frameMinLen ≤ g.length → handleData [] g = ([], [])) := by
  have hmin : frameMinLen = 16 := rfl
  refine ⟨?_, fun hglen => handleData_garbage g hg hglen⟩
  rw [feedChunks_two]
  by_cases hglen : g.length < frameMinLen
  · rw [handleData_short [] g (by simpa using hglen)]
    dsimp only
    simp only [List.nil_append]
    rw [handleData_frame g d ck hg hd h55]
  · rw [handleData_garbage g hg (by omega)]
    rw [handleData_frame [] d ck (by simp) hd h55]
    simp

/-- Counterexample to claim C6 as stated: two frames that pass every
validation stage (in particular their checksum bytes are the correct sums),
where the first frame's checksum byte happens to equal the end-marker byte
`0x55`; feeding their concatenation does not emit the first frame intact
(the end-marker scan stops at the checksum byte and truncates it). -/
theorem sticky_frame_reassembly_cex :
    calcSum (0x55 :: List.replicate 13 0) = 0x55 ∧
    calcSum (List.replicate 14 0) = 0 ∧
    parseOk (parse defaultParser (mkFrame (0x55 :: List.replicate 13 0) 0x55)) = true ∧
    parseOk (parse defaultParser (mkFrame (List.replicate 14 0) 0)) = true ∧
    (feedChunks [mkFrame (0x55 :: List.replicate 13 0) 0x55 ++
        mkFrame (List.replicate 14 0) 0]).1 ≠
      [mkFrame (0x55 :: List.replicate 13 0) 0x55, mkFrame (List.replicate 14 0) 0] := by
  refine ⟨rfl, rfl, rfl, rfl, ?_⟩
  decide

/-- Counterexample to claim C7 as stated: a start-marker-free garbage byte
followed by a frame that passes every validation stage but whose checksum
byte equals the end-marker byte `0x55`; the reassembler emits a truncated
frame, not the original. -/
theorem garbage_resync_cex :
    frameStartByte ∉ ([0x00] : List Nat) ∧
    calcSum (0x55 :: List.replicate 13 0) = 0x55 ∧
    parseOk (parse defaultParser (mkFrame (0x55 :: List.replicate 13 0) 0x55)) = true ∧
    (feedChunks [[0x00], mkFrame (0x55 :: List.replicate 13 0) 0x55]).1 ≠
      [mkFrame (0x55 :: List.replicate 13 0) 0x55] := by
  refine ⟨by decide, rfl, rfl, ?_⟩
  decide

theorem torn_frame_reassembly_witness :
    (List.replicate 14 0 : List Nat).length = 14 ∧
    (0 : Nat) = calcSum (List.replicate 14 0) ∧
    5 ≤ (mkFrame (List.replicate 14 0) 0).length ∧
    ((feedChunks [(mkFrame (List.replicate 14 0) 0).take 5,
        (mkFrame (List.replicate 14 0) 0).drop 5]).1 =
      (feedChunks [mkFrame (List.replicate 14 0) 0]).1 ∧
      ((feedChunks [mkFrame (List.replicate 14 0) 0]).1).length = 1) :=
  ⟨by decide, by decide, by decide,
    torn_frame_reassembly_eq_whole (List.replicate 14 0) 0 5 (by decide) (by decide)
      (by decide)⟩

theorem sticky_frame_reassembly_witness :
    feedChunks [mkFrame (List.replicate 14 0) 0 ++ mkFrame (1 :: List.replicate 13 0) 1] =
      ([mkFrame (List.replicate 14 0) 0, mkFrame (1 :: List.replicate 13 0) 1], []) :=
  sticky_frame_reassembly (List.replicate 14 0) (1 :: List.replicate 13 0) 0 1
    (by decide) (by decide) (by decide) (by decide) (by decide) (by decide)

theorem garbage_resync_witness :
    (feedChunks [[0x00], mkFrame (List.replicate 14 0) 0]).1 =
      [mkFrame (List.replicate 14 0) 0] :=
  (garbage_resync [0x00] (List.replicate 14 0) 0 (by decide) (by decide) (by decide)
    (by decide)).1

theorem map_mod_eq_self (l : List Nat) (h : ∀ b ∈ l, b < 256) :
    l.map (· % 256) = l := by
  induction l with
  | nil => rfl
  | cons b r ih =>
    simp [Nat.mod_eq_of_lt (h b (by simp)), ih (fun x hx => h x (by simp [hx]))]

theorem calcSum_foldl (l : List Nat) (a : Nat) :
    (l.foldl (fun s b => (s + b % 256) % 65536) a) % 256 =
      (a + (l.map (· % 256)).sum) % 256 := by
  induction l generalizing a with
  | nil => simp
  | cons b r ih =>
    rw [List.foldl_cons, ih]
    simp only [List.map_cons, List.sum_cons]
    omega

/-- On byte-valued segments the uint16 accumulation of `calcSum` is just the
sum modulo 256. -/
theorem calcSum_eq_sum_mod (l : List Nat) (h : ∀ b ∈ l, b < 256) :
    calcSum l = l.sum % 256 := by
  unfold calcSum
  rw [calcSum_foldl, map_mod_eq_self l h]
  simp

theorem sum_set_add (l : List Nat) (i v : Nat) (h : i < l.length) :
    (l.set i v).sum + l.getD i 0 = l.sum + v := by
  induction l generalizing i with
  | nil => simp at h
  | cons b r ih =>
    cases i with
    | zero => simp [List.set]; omega
    | succ n =>
      have hn : n < r.length := by simpa using h
      have := ih n hn
      simp only [List.set, List.sum_cons, List.getD_cons_succ]
      omega

theorem getD_lt_of_forall (l : List Nat) (i : Nat) (h : i < l.length)
    (hb : ∀ b ∈ l, b < 256) : l.getD i 0 < 256 := by
  rw [List.getD_eq_getElem l 0 h]
  exact hb _ (List.getElem_mem h)

theorem mkFrame_parse_shape (d : List Nat) (ck : Nat) (hd : d.length = 14) :
    parse defaultParser (mkFrame d ck) =
      (if calcSum d ≠ ck then Except.error ParseErr.checksumMismatch
       else
        match extractDetectData defaultParser d with
        | Except.error e => Except.error (ParseErr.extractFailed e)
        | Except.ok r0 =>
          Except.ok (checkDataValid { r0 with rawFrameHex := hexUpper (mkFrame d ck) })) := by
  have hflen : (mkFrame d ck).length = 17 := mkFrame_length d ck hd
  have hsplit : mkFrame d ck = (frameStartByte :: d ++ [ck]) ++ [frameEndByte] := by
    simp [mkFrame]
  have hlen16 : (frameStartByte :: d ++ [ck]).length = 16 := by simp [hd]
  have htake : (mkFrame d ck).take 1 = [frameStartByte] := by
    simp [mkFrame]
  have hdrop16 : (mkFrame d ck).drop 16 = [frameEndByte] := by
    rw [hsplit, List.drop_left' hlen16]
  have hck15 : (mkFrame d ck).getD 15 0 = ck := by
    have h15 : (frameStartByte :: d).length = 15 := by simp [hd]
    have : mkFrame d ck = (frameStartByte :: d) ++ [ck, frameEndByte] := by
      simp [mkFrame]
    rw [this, List.getD_eq_getElem _ 0 (by simp [hd]), List.getElem_append_right (by omega)]
    simp [hd]
  have hdata : ((mkFrame d ck).drop 1).take 14 = d := by
    show ((frameStartByte :: (d ++ [ck, frameEndByte])).drop 1).take 14 = d
    rw [List.drop_succ_cons, List.drop_zero, List.take_left' hd]
  unfold parse
  simp only [defaultParser, hflen]
  rw [if_neg (by omega)]
  simp only [show ([(0xAA : Nat)]).length = 1 from rfl,
    show ([(0x55 : Nat)]).length = 1 from rfl,
    show (17 : Nat) - 1 = 16 from rfl, show (16 : Nat) - 1 = 15 from rfl,
    show (15 : Nat) - 1 = 14 from rfl, true_and]
  rw [htake, if_neg (by simp [frameStartByte])]
  rw [hdrop16, if_neg (by simp [frameEndByte])]
  rw [hdata, hck15]

theorem extract_ok (p : Parser) (d : List Nat) (h : 14 ≤ d.length) :
    extractDetectData p d = Except.ok
      { deviceID := p.deviceID
        deviceModel := p.deviceModel
        ph := bcdFieldVal (d.getD 0 0) (d.getD 1 0)
        protein := parseGrade (d.getD 2 0)
        glucose := parseGrade (d.getD 3 0)
        ketone := parseGrade (d.getD 4 0)
        occultBlood := parseGrade (d.getD 5 0)
        leukocyte := parseGrade (d.getD 6 0)
        erythrocyte := parseGrade (d.getD 7 0)
        urobilinogen := parseGrade (d.getD 8 0)
        bilirubin := parseGrade (d.getD 9 0)
        vc := parseGrade (d.getD 13 0)
        nitrite := parseNitrite (d.getD 10 0)
        specificGrav := bcdFieldVal (d.getD 11 0) (d.getD 12 0) } := by
  unfold extractDetectData
  rw [if_neg (by omega)]
  rfl

/-- Claim C3: checksum round-trip. For every 14-byte data segment `d`, the
frame `start ++ d ++ [sum d mod 256] ++ end` passes all of Parse's
validation stages (indeed parses successfully); mutating any single data
byte, or supplying any other checksum byte, yields exactly the
checksum-mismatch error; and Parse avoids the checksum-mismatch error
exactly when the byte before the end marker is the data-segment sum
modulo 256. -/
theorem checksum_round_trip (d : List Nat) (hd : d.length = 14)
    (hb : ∀ b ∈ d, b < 256) :
    parseOk (parse defaultParser (mkFrame d (calcSum d))) = true ∧
    (∀ i v, i < 14 → v < 256 → v ≠ d.getD i 0 →
      parse defaultParser (mkFrame (d.set i v) (calcSum d)) =
        Except.error ParseErr.checksumMismatch) ∧
    (∀ ck, ck < 256 →
      (parse defaultParser (mkFrame d ck) ≠ Except.error ParseErr.checksumMismatch ↔
        ck = calcSum d)) := by
  have hok : ∀ ck, calcSum d = ck →
      parseOk (parse defaultParser (mkFrame d ck)) = true := by
    intro ck hck
    rw [mkFrame_parse_shape d ck hd, if_neg (by simp [hck]),
      extract_ok defaultParser d (by omega)]
    rfl
  have hfail : ∀ ck, calcSum d ≠ ck →
      parse defaultParser (mkFrame d ck) = Except.error ParseErr.checksumMismatch := by
    intro ck hck
    rw [mkFrame_parse_shape d ck hd, if_pos hck]
  refine ⟨hok _ rfl, ?_, ?_⟩
  · intro i v hi hv hne
    have hd' : (d.set i v).length = 14 := by simp [hd]
    have hbset : ∀ b ∈ d.set i v, b < 256 := by
      intro b hbmem
      rcases List.mem_or_eq_of_mem_set hbmem with h | h
      · exact hb b h
      · omega
    have hsum : calcSum (d.set i v) ≠ calcSum d := by
      rw [calcSum_eq_sum_mod _ hbset, calcSum_eq_sum_mod d hb]
      have hset := sum_set_add d i v (by omega)
      have hgetlt : d.getD i 0 < 256 := getD_lt_of_forall d i (by omega) hb
      intro hmod
      omega
    rw [mkFrame_parse_shape (d.set i v) (calcSum d) hd', if_pos hsum]
  · intro ck hck
    constructor
    · intro hne
      by_contra hcc
      exact hne (hfail ck (fun he => hcc he.symm))
    · intro he hcontra
      have hpo := hok ck he.symm
      rw [hcontra] at hpo
      simp [parseOk] at hpo

theorem checksum_round_trip_witness :
    parseOk (parse defaultParser
      (mkFrame (List.replicate 14 1) (calcSum (List.replicate 14 1)))) = true :=
  (checksum_round_trip (List.replicate 14 1) (by decide) (by decide)).1

/-- Claim C1 (the code contradicts it): `Parse` of the frame
`AA052001000000000000001010002955` does not succeed — it already fails the
checksum stage, because the sum of the 13-byte interior data segment is
`0x46` while the byte before the end marker is `0x29` (the repository's own
`TestParse_NormalFrame` expects success with PH 5.20). The claim's second
half does hold: the `0x99`-checksum variant also fails with the
checksum-mismatch error. -/
theorem parse_normal_frame_rejected :
    parse defaultParser
        [0xAA, 0x05, 0x20, 0x01, 0x00, 0x00, 0x00, 0x00, 0x00, 0x00, 0x00,
          0x10, 0x10, 0x00, 0x29, 0x55] =
      Except.error ParseErr.checksumMismatch ∧
    calcSum [0x05, 0x20, 0x01, 0x00, 0x00, 0x00, 0x00, 0x00, 0x00, 0x00,
      0x10, 0x10, 0x00] = 0x46 ∧
    parse defaultParser
        [0xAA, 0x05, 0x20, 0x01, 0x00, 0x00, 0x00, 0x00, 0x00, 0x00, 0x00,
          0x10, 0x10, 0x00, 0x99, 0x55] =
      Except.error ParseErr.checksumMismatch :=
  ⟨rfl, rfl, rfl⟩

/-- Claim C2 (the code contradicts it): the packed-pair conversion in
`extractDetectData` renders the 16-bit word with `%04d` (decimal), so the
byte pair `0x05, 0x20` (word 1312) decodes to 1.312, not 5.20, and
`0x10, 0x10` (word 4112) decodes to 4.112, not 1.010 — contrary to the
claim and to the repository's own test assertions. -/
theorem bcd_decode_mismatch :
    bcdFieldVal 0x05 0x20 = 1312 / 1000 ∧
    bcdFieldVal 0x05 0x20 ≠ 52 / 10 ∧
    bcdFieldVal 0x10 0x10 = 4112 / 1000 ∧
    bcdFieldVal 0x10 0x10 ≠ 101 / 100 := by
  have h1 : bcdWord 0x05 0x20 = 1312 := by decide
  have h2 : bcdWord 0x10 0x10 = 4112 := by decide
  have w1 : bcdWidth 1312 = 4 := by decide
  have w2 : bcdWidth 4112 = 4 := by decide
  refine ⟨?_, ?_, ?_, ?_⟩
  · rw [bcdFieldVal, h1, w1]; norm_num
  · rw [Ne, bcdFieldVal, h1, w1]; norm_num
  · rw [bcdFieldVal, h2, w2]; norm_num
  · rw [Ne, bcdFieldVal, h2, w2]; norm_num

/-- Claim C4 (the code contradicts it): with the client object initialized
(`client ≠ nil`), the internal connected flag set, and the transport
reporting an open connection, `Publish` returns the not-connected
precondition error for both message kinds — the guard
`!c.isConnected || c.client.IsConnectionOpen()` fires exactly when the
connection is open. Conversely, it proceeds (and routes to the data topic)
precisely when the transport reports the connection as NOT open. -/
theorem publish_guard_inverted :
    clientPublish "opm1560b/urine/analyzer" "SN1234567890"
        { clientIsNil := false, isConnected := true, connectionOpen := true }
        mqttMsgTypeData = PublishOutcome.errNotConnected ∧
    clientPublish "opm1560b/urine/analyzer" "SN1234567890"
        { clientIsNil := false, isConnected := true, connectionOpen := true }
        mqttMsgTypeState = PublishOutcome.errNotConnected ∧
    clientPublish "opm1560b/urine/analyzer" "SN1234567890"
        { clientIsNil := false, isConnected := true, connectionOpen := false }
        mqttMsgTypeData =
      PublishOutcome.published "opm1560b/urine/analyzer/SN1234567890/data" :=
  ⟨rfl, rfl, rfl⟩

/-- Claim C8: on any data segment long enough for the fixed layout, field
decoding is total — extraction succeeds for every byte assignment; a grade
code of 6 or more and a nitrite code of 2 or more decode to `"invalid"`
without rejecting the frame; and the decoded record carries exactly the
per-byte field decodes (shown for the protein and nitrite fields). Only
the packed-pair conversions are fallible in the source, and on all-digit
strings they always succeed (`parseFloatBCD`). -/
theorem enum_decode_total (data : List Nat) (h14 : 14 ≤ data.length)
    (b c : Nat) (hb : 6 ≤ b) (hc : 2 ≤ c) :
    extractOk (extractDetectData defaultParser data) = true ∧
    parseGrade b = "invalid" ∧
    parseNitrite c = "invalid" ∧
    (∃ r, extractDetectData defaultParser data = Except.ok r ∧
      r.protein = parseGrade (data.getD 2 0) ∧
      r.nitrite = parseNitrite (data.getD 10 0)) := by
  have hx := extract_ok defaultParser data h14
  obtain ⟨k, rfl⟩ : ∃ k, b = k + 6 := ⟨b - 6, by omega⟩
  obtain ⟨m, rfl⟩ : ∃ m, c = m + 2 := ⟨c - 2, by omega⟩
  refine ⟨by rw [hx]; rfl, rfl, rfl, ⟨_, hx, rfl, rfl⟩⟩

theorem enum_decode_total_witness :
    extractOk (extractDetectData defaultParser (List.replicate 14 255)) = true ∧
    parseGrade 6 = "invalid" ∧
    parseNitrite 2 = "invalid" :=
  ⟨(enum_decode_total (List.replicate 14 255) (by decide) 6 2 (by decide) (by decide)).1,
    (enum_decode_total (List.replicate 14 255) (by decide) 6 2 (by decide) (by decide)).2.1,
    (enum_decode_total (List.replicate 14 255) (by decide) 6 2
      (by decide) (by decide)).2.2.1⟩

/-- Claim C9: range classification. `checkDataValid` (the classification
`Parse` applies as its final step, immediately after decode) marks a record
`"abnormal"` exactly when the acidity or specific-gravity field lies outside
its fixed range, and `"normal"` otherwise; in particular acidity 3.00 (with
specific gravity in range) classifies as abnormal, and acidity 6.00 as
normal. -/
theorem range_classification (r : OPM1560BDeviceData) :
    ((checkDataValid r).dataState = dataStateAbnormal ↔
      (r.ph < phMin ∨ phMax < r.ph ∨ r.specificGrav < sgMin ∨
        sgMax < r.specificGrav)) ∧
    ((checkDataValid r).dataState = dataStateNormal ↔
      ¬(r.ph < phMin ∨ phMax < r.ph ∨ r.specificGrav < sgMin ∨
        sgMax < r.specificGrav)) ∧
    (checkDataValid { r with ph := 3, specificGrav := 101 / 100 }).dataState =
      dataStateAbnormal ∧
    (checkDataValid { r with ph := 6, specificGrav := 101 / 100 }).dataState =
      dataStateNormal := by
  have hne : dataStateAbnormal ≠ dataStateNormal := by decide
  refine ⟨?_, ?_, ?_, ?_⟩
  · unfold checkDataValid
    split
    case isTrue h => exact iff_of_true rfl h
    case isFalse h => exact iff_of_false (Ne.symm hne) h
  · unfold checkDataValid
    split
    case isTrue h => exact iff_of_false hne (not_not_intro h)
    case isFalse h => exact iff_of_true rfl h
  · unfold checkDataValid
    rw [if_pos]
    left
    rw [phMin]
    norm_num
  · unfold checkDataValid
    rw [if_neg]
    rw [phMin, phMax, sgMin, sgMax]
    push_neg
    norm_num

theorem range_classification_witness :
    (checkDataValid
        { ({} : OPM1560BDeviceData) with ph := 3, specificGrav := 101 / 100 }).dataState =
      dataStateAbnormal :=
  (range_classification {}).2.2.1

/-- A configuration whose MQTT QoS is 0 and which passes validation as-is
(all other fields at their hardware defaults). -/
def qosZeroConfig : Config :=
  { device := { deviceID := "SN1234567890", model := "OPM-1560B" }
    serial := { port := "COM3", baudRate := 9600, dataBits := 8, stopBits := 1
                parity := "none", timeout := 3, retryCnt := 3, retryInt := 2 }
    mqtt := { broker := "tcp://127.0.0.1:1883", clientID := "SN1234567890"
              username := "", password := "", topicPfx := "opm1560b/urine/analyzer"
              qos := 0, keepAlive := 30, reconnectInt := 2
              willTopic := "opm1560b/urine/analyzer/SN1234567890/state"
              willMsg := "offline", willQoS := 1, willRetain := true }
    log := { path := "logs/app.log", level := "INFO" }
    parser := { frameStart := "AA", frameEnd := "55", checkType := "sum"
                frameMinLen := 16 } }

theorem ite_error_ok {c : Type} (P : Prop) [Decidable P] (s : String)
    (k : Except String c) (u : c)
    (h : (if P then Except.error s else k) = Except.ok u) :
    ¬P ∧ k = Except.ok u := by
  by_cases hp : P
  · rw [if_pos hp] at h
    exact absurd h (fun hx => Except.noConfusion hx)
  · rw [if_neg hp] at h
    exact ⟨hp, h⟩

theorem validate_qos_bounds (cfg : Config) (u : Unit)
    (h : validateHardwareConfig cfg = Except.ok u) :
    0 ≤ cfg.mqtt.qos ∧ cfg.mqtt.qos ≤ 2 := by
  unfold validateHardwareConfig at h
  obtain ⟨-, h⟩ := ite_error_ok _ _ _ _ h
  obtain ⟨-, h⟩ := ite_error_ok _ _ _ _ h
  obtain ⟨-, h⟩ := ite_error_ok _ _ _ _ h
  obtain ⟨-, h⟩ := ite_error_ok _ _ _ _ h
  obtain ⟨-, h⟩ := ite_error_ok _ _ _ _ h
  obtain ⟨-, h⟩ := ite_error_ok _ _ _ _ h
  obtain ⟨hq, h⟩ := ite_error_ok _ _ _ _ h
  push_neg at hq
  exact hq

/-- Claim C10: after a successful `Load`, the configuration always has
`MQTT.QoS ∈ {1, 2}` and `MQTT.WillRetain = true`: the default-setting step
rewrites QoS 0 to 1 and a false `WillRetain` to true before validation, and
the environment overrides touch neither field — even though the validator
itself accepts QoS 0 (witnessed by `qosZeroConfig`). -/
theorem load_qos_willretain_invariant :
    (∀ (cfg : Config) (env : Env) (c : Config),
      loadResult cfg env = Except.ok c →
      (c.mqtt.qos = 1 ∨ c.mqtt.qos = 2) ∧ c.mqtt.willRetain = true) ∧
    validateHardwareConfig qosZeroConfig = Except.ok () ∧
    qosZeroConfig.mqtt.qos = 0 := by
  refine ⟨?_, by rfl, rfl⟩
  intro cfg env c h
  unfold loadResult at h
  replace h :
      (match validateHardwareConfig (overrideByEnv (setHardwareDefaults cfg) env) with
        | Except.error e => (Except.error e : Except String Config)
        | Except.ok _ => Except.ok (overrideByEnv (setHardwareDefaults cfg) env)) =
        Except.ok c := h
  cases hv : validateHardwareConfig (overrideByEnv (setHardwareDefaults cfg) env) with
  | error e => rw [hv] at h; exact absurd h (by simp)
  | ok u =>
    rw [hv] at h
    have hcc : c = overrideByEnv (setHardwareDefaults cfg) env := by
      cases h; rfl
    subst hcc
    have hb := validate_qos_bounds _ u hv
    have hqd : (overrideByEnv (setHardwareDefaults cfg) env).mqtt.qos =
        if cfg.mqtt.qos = 0 then 1 else cfg.mqtt.qos := rfl
    have hwd : (overrideByEnv (setHardwareDefaults cfg) env).mqtt.willRetain =
        if !cfg.mqtt.willRetain then true else cfg.mqtt.willRetain := rfl
    constructor
    · rw [hqd] at hb ⊢
      by_cases hz : cfg.mqtt.qos = 0
      · rw [if_pos hz]; left; rfl
      · rw [if_neg hz]; rw [if_neg hz] at hb; omega
    · rw [hwd]
      cases hw : cfg.mqtt.willRetain <;> simp

theorem load_qos_willretain_invariant_witness :
    ((overrideByEnv (setHardwareDefaults qosZeroConfig) {}).mqtt.qos = 1 ∨
      (overrideByEnv (setHardwareDefaults qosZeroConfig) {}).mqtt.qos = 2) ∧
    (overrideByEnv (setHardwareDefaults qosZeroConfig) {}).mqtt.willRetain = true :=
  load_qos_willretain_invariant.1 qosZeroConfig {}
    (overrideByEnv (setHardwareDefaults qosZeroConfig) {}) (by rfl)

end Opm
